import Mathlib

/-!
# Verification of the map2loop stratigraphic-column and thickness subsystems

This file embeds the data model and the operations of the map2loop
stratigraphic-column construction and unit-thickness estimation subsystems,
together with the `gdal_inv_geo_transform` wrapper from
`map2loop/gdal_wrapper.pyx`, and proves the documented contracts about them.

The Python sorter/assembler/thickness modules themselves are not part of the
source tree available here (only their documentation, templates and callers
are), so those operations are modelled from the specification text; each such
definition carries a doc comment starting with `Modelled from the spec:`.
The documented plugin examples (`mySorter.sort`, `myThicknessCalculator.compute`)
and the gdal wrapper are embedded directly from the source text.
-/

namespace Map2Loop

/-- A row of the units table: layer identifier, name, group, supergroup,
minimum and maximum age (possibly absent), and the assigned thickness
(initially a sentinel). Mirrors the unit metadata columns
`["layerId", "name", "minAge", "maxAge", "group"]` described in the sorter
documentation plus the supergroup/thickness attributes of the Unit record. -/
structure UnitRow where
  layerId : Nat
  name : String
  group : String
  supergroup : String
  minAge : Option Int
  maxAge : Option Int
  thickness : ℚ
deriving DecidableEq, Repr

/-- A row of the unit relationships table:
columns `["Index1", "Unitname1", "Index2", "Unitname2"]`. -/
structure UnitRelationship where
  index1 : Nat
  name1 : String
  index2 : Nat
  name2 : String
deriving DecidableEq, Repr

/-- A row of the contacts table: the two adjacent unit names and the length
of their shared boundary in metres. -/
structure ContactRow where
  name1 : String
  name2 : String
  length : ℚ
deriving DecidableEq, Repr

/-- A row of the basal contacts table: columns
`["ID", "basal_unit", "type", "geometry"]`, with the geometry abstracted to
its derived length. -/
structure BasalContact where
  id : Nat
  basal_unit : String
  contact_type : String
  length : ℚ
deriving DecidableEq, Repr

/-- The read-only map-data accessor: `get_map_data(data_kind)` returns the raw
table for a given data kind. Only used as an opaque capability by strategies. -/
structure MapData where
  get_map_data : String → List (List String)

/-- The error taxonomy of the core: validation, missing-data, cyclic-order and
configuration errors. -/
inductive M2LError where
  | validationError (missing extra : List String)
  | missingDataError (msg : String)
  | cyclicOrderError (msg : String)
  | configurationError (msg : String)
deriving DecidableEq, Repr

/-- The name column of a units table. -/
def unitNames (units : List UnitRow) : List String :=
  units.map UnitRow.name

/-! ## Lexicographic string comparison

Python's `sorted` on strings compares lexicographically by code point; we model
that ordering executably over the code-point lists. -/

/-- The code points of a string. -/
def strCodes (s : String) : List Nat :=
  s.data.map Char.toNat

/-- Lexicographic (non-decreasing) comparison of code-point lists. -/
def codesLe : List Nat → List Nat → Bool
  | [], _ => true
  | _ :: _, [] => false
  | a :: as, b :: bs =>
    if a < b then true
    else if b < a then false
    else codesLe as bs

/-- Lexicographic comparison of strings by code point, as Python compares
strings. -/
def strLe (a b : String) : Bool :=
  codesLe (strCodes a) (strCodes b)

theorem codesLe_trans :
    ∀ a b c : List Nat, codesLe a b = true → codesLe b c = true →
      codesLe a c = true
  | [], _, _, _, _ => rfl
  | _ :: _, [], _, h1, _ => by simp [codesLe] at h1
  | _ :: _, _ :: _, [], _, h2 => by simp [codesLe] at h2
  | x :: xs, y :: ys, z :: zs, h1, h2 => by
    simp only [codesLe] at h1 h2 ⊢
    split_ifs at h1 h2 ⊢ with hxy hyx hyz hzy hxz hzx
    all_goals first
      | rfl
      | omega
      | (exact codesLe_trans xs ys zs h1 h2)

theorem codesLe_total :
    ∀ a b : List Nat, (codesLe a b || codesLe b a) = true
  | [], _ => by simp [codesLe]
  | _ :: _, [] => by simp [codesLe]
  | x :: xs, y :: ys => by
    simp only [codesLe]
    split_ifs
    all_goals simpa using codesLe_total xs ys

theorem strLe_trans (a b c : String) (h1 : strLe a b = true)
    (h2 : strLe b c = true) : strLe a c = true :=
  codesLe_trans _ _ _ h1 h2

theorem strLe_total (a b : String) : (strLe a b || strLe b a) = true :=
  codesLe_total _ _

/-- The lexicographic string order as a relation. -/
def strLeR (a b : String) : Prop := strLe a b = true

instance : DecidableRel strLeR := fun a b =>
  inferInstanceAs (Decidable (strLe a b = true))

instance : IsTrans String strLeR := ⟨strLe_trans⟩

instance : IsTotal String strLeR :=
  ⟨fun a b => (Bool.or_eq_true _ _).mp (strLe_total a b)⟩

/-! ## The documented example sorter (alphabetic)

Embedding of the plugin example from the stratigraphic-order documentation:

    class mySorter(Sorter):
        def sort(self, units, unit_relationships, stratigraphic_order_hint,
                 contacts, map_data) -> list:
            unitnames = sorted(units['name'])
            return unitnames
-/

/-- Embedding of `mySorter.sort`: returns `sorted(units['name'])`; the
relationships, hint, contacts and map-data arguments are ignored. -/
def mySorter_sort (units : List UnitRow) (_unit_relationships : List UnitRelationship)
    (_stratigraphic_order_hint : List String) (_contacts : List ContactRow)
    (_map_data : MapData) : List String :=
  List.insertionSort strLeR (unitNames units)

/-- C4: For every units table, the alphabetic Sorter returns the unit names
sorted lexicographically (non-decreasing), containing every unit name from the
units table exactly once (given distinct unit names), and the result does not
depend on the relationships, order hint, contacts, or map-data arguments. -/
theorem mySorter_sort_alphabetic (units : List UnitRow)
    (r r2 : List UnitRelationship) (h h2 : List String)
    (c c2 : List ContactRow) (m m2 : MapData)
    (hnodup : (unitNames units).Nodup) :
    (mySorter_sort units r h c m).Pairwise strLeR ∧
    (mySorter_sort units r h c m).Perm (unitNames units) ∧
    (∀ n, n ∈ unitNames units → (mySorter_sort units r h c m).count n = 1) ∧
    mySorter_sort units r h c m = mySorter_sort units r2 h2 c2 m2 := by
  refine ⟨List.sorted_insertionSort strLeR (unitNames units),
    List.perm_insertionSort strLeR (unitNames units), ?_, rfl⟩
  intro n hn
  have hperm : (mySorter_sort units r h c m).Perm (unitNames units) :=
    List.perm_insertionSort strLeR (unitNames units)
  rw [hperm.count_eq]
  exact List.count_eq_one_of_mem hnodup hn

/-! ## Column Assembler

Modelled from the spec: the Column Assembler orchestrates Sorter strategies,
validates every returned ordering against the unit name-set (raising a
`ValidationError` naming the missing/extra units on mismatch), optionally runs
every registered strategy and keeps the ordering maximizing total basal-contact
length (`take_best`), and accepts a user-defined stratigraphic column directly
after validation, bypassing all Sorters. -/

/-- The type of a Sorter strategy:
`sort(units, unit_relationships, stratigraphic_order_hint, contacts, map_data)`
returning an ordered list of unit names or an error. -/
def SorterFn : Type :=
  List UnitRow → List UnitRelationship → List String → List ContactRow →
    MapData → Except M2LError (List String)

/-- Whether a returned column's names exactly match the units table's names:
no name added, dropped, or duplicated (multiset equality). -/
def nameSetMatches (column : List String) (units : List UnitRow) : Bool :=
  decide (column.Perm (unitNames units))

/-- The unit names absent from a returned column (for the validation error). -/
def missingNames (column : List String) (units : List UnitRow) : List String :=
  (unitNames units).filter (fun n => !(column.contains n))

/-- The returned-column names not present in the units table (for the
validation error). -/
def extraNames (column : List String) (units : List UnitRow) : List String :=
  column.filter (fun n => !((unitNames units).contains n))

/-- Modelled from the spec: the name-set validation applied after every Sorter
invocation — accept the column when its name-set equals the units table's,
otherwise raise a `ValidationError` naming the missing/extra units. -/
def validateColumn (units : List UnitRow) (column : List String) :
    Except M2LError (List String) :=
  if nameSetMatches column units then Except.ok column
  else Except.error (M2LError.validationError
    (missingNames column units) (extraNames column units))

/-- Modelled from the spec: run one Sorter strategy and validate its output
before accepting it. -/
def runSorter (sorter : SorterFn) (u : List UnitRow) (r : List UnitRelationship)
    (h : List String) (c : List ContactRow) (m : MapData) :
    Except M2LError (List String) :=
  match sorter u r h c m with
  | Except.error e => Except.error e
  | Except.ok column => validateColumn u column

/-- Total basal-contact length between one pair of units (summed over all
contact rows for that unordered pair). -/
def pairContactLength (contacts : List ContactRow) (a b : String) : ℚ :=
  ((contacts.filter (fun ct =>
      (ct.name1 == a && ct.name2 == b) || (ct.name1 == b && ct.name2 == a))).map
    ContactRow.length).sum

/-- Consecutive pairs of an ordering. -/
def adjacentPairs : List String → List (String × String)
  | [] => []
  | [_] => []
  | a :: b :: rest => (a, b) :: adjacentPairs (b :: rest)

/-- The take-best metric: total basal-contact length summed over unit pairs
adjacent in the ordering. -/
def contactLengthMetric (contacts : List ContactRow) (order : List String) : ℚ :=
  ((adjacentPairs order).map (fun p => pairContactLength contacts p.1 p.2)).sum

/-- Modelled from the spec: among the candidate orderings (in registration
priority order), keep the one with maximal metric; ties keep the
earliest-registered candidate (strict improvement required to replace). -/
def selectBest (metric : List String → ℚ) :
    List (List String) → Option (List String)
  | [] => none
  | c :: cs =>
    some (cs.foldl (fun best x => if metric best < metric x then x else best) c)

/-- Modelled from the spec: the take-best policy — run every registered Sorter,
drop the ones that fail (their errors are caught and that strategy is excluded
from the comparison), and select the validated ordering with the maximum total
basal-contact length; a `ConfigurationError` if no strategy succeeds. -/
def takeBestColumn (sorters : List SorterFn) (u : List UnitRow)
    (r : List UnitRelationship) (h : List String) (c : List ContactRow)
    (m : MapData) : Except M2LError (List String) :=
  let candidates := sorters.filterMap (fun s => (runSorter s u r h c m).toOption)
  match selectBest (contactLengthMetric c) candidates with
  | some best => Except.ok best
  | none => Except.error (M2LError.configurationError "no sorter succeeded")

/-- Modelled from the spec: `assemble` — with `take_best` run all registered
sorters and keep the best; otherwise use the user-defined stratigraphic column
(validated, bypassing all Sorters) when supplied, else the single selected
strategy. -/
def assembleColumn (sorters : List SorterFn) (take_best : Bool)
    (user_defined_stratigraphic_column : Option (List String))
    (sorter : SorterFn) (u : List UnitRow) (r : List UnitRelationship)
    (h : List String) (c : List ContactRow) (m : MapData) :
    Except M2LError (List String) :=
  if take_best then takeBestColumn sorters u r h c m
  else
    match user_defined_stratigraphic_column with
    | some column => validateColumn u column
    | none => runSorter sorter u r h c m

theorem selectBest_foldl_le (metric : List String → ℚ) :
    ∀ (cs : List (List String)) (best : List String),
      metric best ≤
        metric (cs.foldl (fun b x => if metric b < metric x then x else b) best)
  | [], _ => le_refl _
  | x :: cs, best => by
    simp only [List.foldl_cons]
    by_cases hlt : metric best < metric x
    · simp only [if_pos hlt]
      exact le_trans (le_of_lt hlt) (selectBest_foldl_le metric cs x)
    · simp only [if_neg hlt]
      exact selectBest_foldl_le metric cs best

theorem selectBest_foldl_mem_le (metric : List String → ℚ) :
    ∀ (cs : List (List String)) (best x : List String), x ∈ cs →
      metric x ≤
        metric (cs.foldl (fun b y => if metric b < metric y then y else b) best)
  | [], _, _, hx => absurd hx (List.not_mem_nil _)
  | y :: cs, best, x, hx => by
    simp only [List.foldl_cons]
    rcases List.mem_cons.mp hx with hxy | hxcs
    · subst hxy
      by_cases hlt : metric best < metric x
      · simp only [if_pos hlt]
        exact selectBest_foldl_le metric cs x
      · simp only [if_neg hlt]
        exact le_trans (le_of_not_lt hlt) (selectBest_foldl_le metric cs best)
    · exact selectBest_foldl_mem_le metric cs _ x hxcs

theorem selectBest_le (metric : List String → ℚ) (cands : List (List String))
    (x : List String) (hx : x ∈ cands) :
    ∃ b, selectBest metric cands = some b ∧ metric x ≤ metric b := by
  cases cands with
  | nil => exact absurd hx (List.not_mem_nil _)
  | cons c0 cs =>
    refine ⟨_, rfl, ?_⟩
    rcases List.mem_cons.mp hx with hx0 | hxcs
    · subst hx0; exact selectBest_foldl_le metric cs x
    · exact selectBest_foldl_mem_le metric cs c0 x hxcs

/-- C2: with `take_best` the Column Assembler evaluates every registered Sorter
strategy and selects the validated ordering whose total basal-contact length is
maximal: for every registered strategy whose (validated) ordering succeeds, the
metric of the selected ordering is ≥ that strategy's metric. Ties keep the
earliest strategy in the fixed registration priority order (see `selectBest`). -/
theorem takeBest_metric_maximal (sorters : List SorterFn) (u : List UnitRow)
    (r : List UnitRelationship) (h : List String) (c : List ContactRow)
    (m : MapData) (s : SorterFn) (hs : s ∈ sorters) (l : List String)
    (hok : runSorter s u r h c m = Except.ok l) :
    ∃ best, takeBestColumn sorters u r h c m = Except.ok best ∧
      contactLengthMetric c l ≤ contactLengthMetric c best := by
  have hl : l ∈ sorters.filterMap (fun s2 => (runSorter s2 u r h c m).toOption) :=
    List.mem_filterMap.mpr ⟨s, hs, by rw [hok]; rfl⟩
  obtain ⟨b, hb, hle⟩ := selectBest_le (contactLengthMetric c) _ _ hl
  exact ⟨b, by simp only [takeBestColumn, hb], hle⟩

/-- C1: for every Sorter strategy, if the list it returns has a name-set
different from the units table's (any name added, dropped, or duplicated —
i.e. it is not a permutation of the unit names), the Column Assembler raises a
`ValidationError` naming the missing/extra units; if the name-sets are equal
the column is accepted unchanged. -/
theorem columnAssembler_validation (sorter : SorterFn) (u : List UnitRow)
    (r : List UnitRelationship) (h : List String) (c : List ContactRow)
    (m : MapData) (l : List String) (hs : sorter u r h c m = Except.ok l) :
    (¬ l.Perm (unitNames u) →
      runSorter sorter u r h c m =
        Except.error (M2LError.validationError (missingNames l u) (extraNames l u))) ∧
    (l.Perm (unitNames u) → runSorter sorter u r h c m = Except.ok l) := by
  constructor <;> intro hp <;>
    simp [runSorter, hs, validateColumn, nameSetMatches, hp]

/-- C6: with `take_best = false` and a user-defined stratigraphic column whose
name-set exactly equals the units table's name-set, the Column Assembler
accepts the list unchanged — for every Sorter strategy argument the result is
the same `ok` column, so no Sorter is consulted. -/
theorem userDefined_column_bypasses_sorters (sorters : List SorterFn)
    (u : List UnitRow) (r : List UnitRelationship) (h : List String)
    (c : List ContactRow) (m : MapData) (column : List String)
    (hmatch : column.Perm (unitNames u)) :
    ∀ sorter : SorterFn,
      assembleColumn sorters false (some column) sorter u r h c m =
        Except.ok column := by
  intro sorter
  simp [assembleColumn, validateColumn, nameSetMatches, hmatch]

/-! ## Age-based and hint-based sorters -/

/-- Whether a unit row carries both its minimum and maximum age. -/
def hasAges (u : UnitRow) : Bool :=
  u.minAge.isSome && u.maxAge.isSome

/-- Boolean comparison of unit rows by the (minAge, maxAge) key,
lexicographically, ascending. -/
def ageLe (u v : UnitRow) : Bool :=
  decide (u.minAge.getD 0 < v.minAge.getD 0 ∨
    (u.minAge.getD 0 = v.minAge.getD 0 ∧ u.maxAge.getD 0 ≤ v.maxAge.getD 0))

theorem ageLe_trans (a b c : UnitRow) (h1 : ageLe a b = true)
    (h2 : ageLe b c = true) : ageLe a c = true := by
  simp only [ageLe, decide_eq_true_eq] at h1 h2 ⊢
  rcases h1 with h1 | ⟨h1e, h1m⟩ <;> rcases h2 with h2 | ⟨h2e, h2m⟩ <;> omega

theorem ageLe_total (a b : UnitRow) : (ageLe a b || ageLe b a) = true := by
  simp only [ageLe, Bool.or_eq_true, decide_eq_true_eq]
  omega

/-- The (minAge, maxAge) order on unit rows as a relation. -/
def ageLeR (a b : UnitRow) : Prop := ageLe a b = true

instance : DecidableRel ageLeR := fun a b =>
  inferInstanceAs (Decidable (ageLe a b = true))

instance : IsTrans UnitRow ageLeR := ⟨ageLe_trans⟩

instance : IsTotal UnitRow ageLeR :=
  ⟨fun a b => (Bool.or_eq_true _ _).mp (ageLe_total a b)⟩

/-- Modelled from the spec: `SorterAgeBased.sort` — sort the units by
(minAge, maxAge) ascending; a unit lacking age data is an error condition for
this strategy, signalled as a `MissingDataError` (never silently defaulted to
zero). -/
def SorterAgeBased_sort (units : List UnitRow)
    (_unit_relationships : List UnitRelationship)
    (_stratigraphic_order_hint : List String) (_contacts : List ContactRow)
    (_map_data : MapData) : Except M2LError (List String) :=
  if units.all hasAges then
    Except.ok ((List.insertionSort ageLeR units).map UnitRow.name)
  else Except.error (M2LError.missingDataError "unit age data missing")

/-- Modelled from the spec: `SorterUseHint.sort` — return the stratigraphic
order hint exactly when its name-set matches the units table's name-set;
otherwise signal a `MissingDataError` rather than silently dropping units. -/
def SorterUseHint_sort (units : List UnitRow)
    (_unit_relationships : List UnitRelationship)
    (stratigraphic_order_hint : List String) (_contacts : List ContactRow)
    (_map_data : MapData) : Except M2LError (List String) :=
  if nameSetMatches stratigraphic_order_hint units then
    Except.ok stratigraphic_order_hint
  else Except.error (M2LError.missingDataError "order hint does not match units")

/-- C8: the age-based Sorter sorts units by (minAge, maxAge): whenever some
unit lacks age data it signals a `MissingDataError` (it never defaults missing
ages to zero), and whenever it succeeds the returned names are the unit names
listed in (minAge, maxAge)-ascending order and form a permutation of the
units table's names. -/
theorem sorterAgeBased_spec (u : List UnitRow) (r : List UnitRelationship)
    (h : List String) (c : List ContactRow) (m : MapData) :
    ((∃ x ∈ u, ¬ hasAges x = true) →
      SorterAgeBased_sort u r h c m =
        Except.error (M2LError.missingDataError "unit age data missing")) ∧
    (∀ l, SorterAgeBased_sort u r h c m = Except.ok l →
      l = (List.insertionSort ageLeR u).map UnitRow.name ∧
      (List.insertionSort ageLeR u).Pairwise ageLeR ∧
      l.Perm (unitNames u)) := by
  constructor
  · intro hmiss
    have hall : ¬ u.all hasAges = true := by
      simp only [List.all_eq_true]
      intro hforall
      obtain ⟨x, hx, hnot⟩ := hmiss
      exact hnot (hforall x hx)
    simp [SorterAgeBased_sort, hall]
  · intro l hl
    by_cases hall : u.all hasAges = true
    · simp only [SorterAgeBased_sort, if_pos hall, Except.ok.injEq] at hl
      subst hl
      exact ⟨rfl, List.sorted_insertionSort ageLeR u,
        (List.perm_insertionSort ageLeR u).map UnitRow.name⟩
    · simp [SorterAgeBased_sort, hall] at hl

/-- C9: the hint-based Sorter is idempotent on correct input — for every order
hint whose name-set exactly equals the units table's name-set, `sort` returns
the hint list unchanged; when the name-sets differ it signals a
`MissingDataError` rather than silently dropping units. -/
theorem sorterUseHint_idempotent (u : List UnitRow) (r : List UnitRelationship)
    (hint : List String) (c : List ContactRow) (m : MapData) :
    (hint.Perm (unitNames u) →
      SorterUseHint_sort u r hint c m = Except.ok hint) ∧
    (¬ hint.Perm (unitNames u) →
      SorterUseHint_sort u r hint c m =
        Except.error (M2LError.missingDataError "order hint does not match units")) := by
  constructor <;> intro hp <;>
    simp [SorterUseHint_sort, nameSetMatches, hp]

/-! ## Thickness Calculator and Thickness Assembler -/

/-- The type of a ThicknessCalculator strategy:
`compute(units, stratigraphic_order, basal_contacts, map_data)` returning a
units table carrying thickness values. Strategies are untrusted plugin code,
so the function is arbitrary. -/
def ThicknessCalcFn : Type :=
  List UnitRow → List String → List BasalContact → MapData → List UnitRow

/-- Embedding of the documented example calculator
`myThicknessCalculator.compute`: copy the units table and set every thickness
to the default value. -/
def myThicknessCalculator_compute (default_thickness : ℚ) : ThicknessCalcFn :=
  fun units _stratigraphic_order _basal_contacts _map_data =>
    units.map (fun u => { u with thickness := default_thickness })

/-- Thickness of the unit of the given name in a calculator output (the name
join used by the Thickness Assembler merge); sentinel when absent. -/
def lookupThickness (out : List UnitRow) (n : String) : ℚ :=
  match out.find? (fun x => x.name == n) with
  | some x => x.thickness
  | none => -1

/-- Modelled from the spec: the Thickness Assembler — invoke the single active
calculator, validate the output row count and unit name-set (raising a
`ValidationError` on join mismatch: duplicate or missing names), and merge the
thickness values back onto the canonical units table by unit-name join. -/
def assembleThickness (calculator : ThicknessCalcFn) (units : List UnitRow)
    (stratigraphic_order : List String) (basal_contacts : List BasalContact)
    (map_data : MapData) : Except M2LError (List UnitRow) :=
  let out := calculator units stratigraphic_order basal_contacts map_data
  if out.length = units.length ∧ (unitNames out).Perm (unitNames units) then
    Except.ok (units.map (fun u => { u with thickness := lookupThickness out u.name }))
  else
    Except.error (M2LError.validationError
      (missingNames (unitNames out) units) (extraNames (unitNames out) units))

/-- All columns of a unit row other than the thickness column. -/
def UnitRow.core (u : UnitRow) :
    Nat × String × String × String × Option Int × Option Int :=
  (u.layerId, u.name, u.group, u.supergroup, u.minAge, u.maxAge)

theorem assembleThickness_ok_eq (calculator : ThicknessCalcFn)
    (units : List UnitRow) (o : List String) (bc : List BasalContact)
    (m : MapData) (res : List UnitRow)
    (hok : assembleThickness calculator units o bc m = Except.ok res) :
    res = units.map (fun u =>
      { u with thickness := lookupThickness (calculator units o bc m) u.name }) := by
  by_cases hcond : (calculator units o bc m).length = units.length ∧
      (unitNames (calculator units o bc m)).Perm (unitNames units)
  · simp only [assembleThickness, if_pos hcond, Except.ok.injEq] at hok
    exact hok.symm
  · simp [assembleThickness, hcond] at hok

/-- C3: for every ThicknessCalculator strategy and every units table, a
successfully assembled thickness table contains all original unit rows (every
non-thickness column is preserved row by row) with the thickness column
(re)assigned, and its row count equals the input row count — no rows are
silently dropped or added. -/
theorem thicknessAssembler_preserves_rows (calculator : ThicknessCalcFn)
    (units : List UnitRow) (o : List String) (bc : List BasalContact)
    (m : MapData) (res : List UnitRow)
    (hok : assembleThickness calculator units o bc m = Except.ok res) :
    res.length = units.length ∧ res.map UnitRow.core = units.map UnitRow.core := by
  have heq := assembleThickness_ok_eq calculator units o bc m res hok
  subst heq
  constructor
  · exact List.length_map _ _
  · simp only [List.map_map]
    rfl

/-- C7: for every ThicknessCalculator strategy and every units table, the
group, supergroup, minimum-age and maximum-age columns of a successfully
assembled thickness table equal those of the input units table — only the
thickness column changes. -/
theorem thicknessCalculator_frame (calculator : ThicknessCalcFn)
    (units : List UnitRow) (o : List String) (bc : List BasalContact)
    (m : MapData) (res : List UnitRow)
    (hok : assembleThickness calculator units o bc m = Except.ok res) :
    res.map UnitRow.group = units.map UnitRow.group ∧
    res.map UnitRow.supergroup = units.map UnitRow.supergroup ∧
    res.map UnitRow.minAge = units.map UnitRow.minAge ∧
    res.map UnitRow.maxAge = units.map UnitRow.maxAge := by
  have heq := assembleThickness_ok_eq calculator units o bc m res hok
  subst heq
  refine ⟨?_, ?_, ?_, ?_⟩ <;> simp only [List.map_map] <;> rfl

/-! ## Thickness numeric policy (sentinel vs computed values) -/

/-- Modelled from the spec: apparent thickness of one unit from its
contact-pair separation measurements — average separation magnitude when
measurements exist, the out-of-band negative sentinel `-1` (never zero, which
is a valid measured result) when no thickness is computable. -/
def apparentThickness (pairs : List (ℚ × ℚ)) : ℚ :=
  if pairs.isEmpty then -1
  else ((pairs.map (fun p => |p.1 - p.2|)).sum) / pairs.length

/-- Modelled from the spec: a structural-point contact-pair thickness
calculator — each unit receives its apparent thickness from its separation
measurements, or the sentinel when it has none. -/
def contactPairThicknessCalculator
    (measurements : String → List (ℚ × ℚ)) : ThicknessCalcFn :=
  fun units _stratigraphic_order _basal_contacts _map_data =>
    units.map (fun u => { u with thickness := apparentThickness (measurements u.name) })

theorem apparentThickness_nonneg (pairs : List (ℚ × ℚ)) (hne : ¬ pairs.isEmpty = true) :
    0 ≤ apparentThickness pairs := by
  rw [apparentThickness, if_neg hne]
  apply div_nonneg
  · apply List.sum_nonneg
    intro x hx
    obtain ⟨p, _, hpx⟩ := List.mem_map.mp hx
    rw [← hpx]
    exact abs_nonneg _
  · exact_mod_cast Nat.zero_le _

/-- C5: every unit row in the contact-pair calculator's output carries either
a computed non-negative thickness (when it has separation measurements) or the
out-of-band negative sentinel `-1` (when no thickness is computable) — zero is
never used as a sentinel, and in this exact-rational model no NaN can arise. -/
theorem thickness_sentinel_policy (measurements : String → List (ℚ × ℚ))
    (units : List UnitRow) (o : List String) (bc : List BasalContact)
    (m : MapData) (x : UnitRow)
    (hx : x ∈ contactPairThicknessCalculator measurements units o bc m) :
    (measurements x.name = [] ∧ x.thickness = -1) ∨
    (measurements x.name ≠ [] ∧ 0 ≤ x.thickness) := by
  obtain ⟨u, _, hux⟩ := List.mem_map.mp hx
  have hname : x.name = u.name := by rw [← hux]
  have hth : x.thickness = apparentThickness (measurements u.name) := by rw [← hux]
  by_cases hemp : measurements u.name = []
  · left
    refine ⟨by rw [hname, hemp], ?_⟩
    rw [hth, hemp]
    rfl
  · right
    refine ⟨by rw [hname]; exact hemp, ?_⟩
    rw [hth]
    exact apparentThickness_nonneg _ (by simpa [List.isEmpty_iff] using hemp)

/-! ## The gdal geotransform-inversion wrapper

Embedding of `gdal_inv_geo_transform` from `map2loop/gdal_wrapper.pyx`: copy
the first six entries of the input into a C array, call the external
`GDALInvGeoTransform`, raise `RuntimeError` when that call returns nonzero,
and otherwise return the six inverted coefficients as a list. The external
GDAL call is a parameter: it receives the six input coefficients and produces
a return code together with the six output coefficients. -/

/-- Result of the external `GDALInvGeoTransform` call: the C return value and
the six doubles it wrote into `gt_out`. -/
structure GdalInvResult where
  code : Int
  gt_out : Fin 6 → ℚ

/-- Embedding of the `gdal_inv_geo_transform` wrapper, parameterized by the
external `GDALInvGeoTransform` call. -/
def gdal_inv_geo_transform (gdalInvGeoTransform : (Fin 6 → ℚ) → GdalInvResult)
    (gt_in : List ℚ) : Except String (List ℚ) :=
  let gt_in_c : Fin 6 → ℚ := fun i => gt_in.getD i 0
  let res := gdalInvGeoTransform gt_in_c
  if res.code ≠ 0 then Except.error "Geotransform inversion failed"
  else Except.ok ((List.finRange 6).map res.gt_out)

/-- C10: for every input list of at least 6 numbers, `gdal_inv_geo_transform`
either returns the full list of exactly 6 inverted coefficients or raises
`RuntimeError`; it raises exactly when the external `GDALInvGeoTransform` call
returns nonzero, and a returned list is never partially filled. -/
theorem gdal_inv_geo_transform_spec
    (gdalInvGeoTransform : (Fin 6 → ℚ) → GdalInvResult) (gt_in : List ℚ)
    (hlen : 6 ≤ gt_in.length) :
    (∀ l, gdal_inv_geo_transform gdalInvGeoTransform gt_in = Except.ok l →
      l = (List.finRange 6).map
            (gdalInvGeoTransform (fun i => gt_in.getD i 0)).gt_out ∧
      l.length = 6) ∧
    (gdal_inv_geo_transform gdalInvGeoTransform gt_in =
        Except.error "Geotransform inversion failed" ↔
      (gdalInvGeoTransform (fun i => gt_in.getD i 0)).code ≠ 0) := by
  constructor
  · intro l hl
    simp only [gdal_inv_geo_transform] at hl
    split at hl
    · exact Except.noConfusion hl
    · cases hl
      exact ⟨rfl, by simp⟩
  · simp only [gdal_inv_geo_transform]
    constructor
    · intro herr
      split at herr
      · assumption
      · exact Except.noConfusion herr
    · intro hc
      rw [if_pos hc]

/-! ## Concrete instantiations -/

/-- An empty map-data accessor. -/
def mdEmpty : MapData := ⟨fun _ => []⟩

/-- A second, distinct map-data accessor. -/
def mdOther : MapData := ⟨fun _ => [["x"]]⟩

/-- Three concrete units, youngest first. -/
def unitsYMO : List UnitRow :=
  [⟨0, "young", "g1", "sg1", some 0, some 1, -1⟩,
   ⟨1, "mid", "g1", "sg1", some 1, some 2, -1⟩,
   ⟨2, "old", "g2", "sg1", some 2, some 3, -1⟩]

/-- A concrete adjacency observation. -/
def relYO : UnitRelationship := ⟨0, "young", 2, "old"⟩

/-- A concrete contact row. -/
def contactYO : ContactRow := ⟨"young", "old", 500⟩

theorem mySorter_sort_alphabetic_witness :
    (unitNames unitsYMO).Nodup ∧
    ((mySorter_sort unitsYMO [] [] [] mdEmpty).Pairwise strLeR ∧
     (mySorter_sort unitsYMO [] [] [] mdEmpty).Perm (unitNames unitsYMO) ∧
     (∀ n, n ∈ unitNames unitsYMO →
       (mySorter_sort unitsYMO [] [] [] mdEmpty).count n = 1) ∧
     mySorter_sort unitsYMO [] [] [] mdEmpty =
       mySorter_sort unitsYMO [relYO] ["old"] [contactYO] mdOther) :=
  ⟨by decide,
   mySorter_sort_alphabetic unitsYMO [] [relYO] [] ["old"] [] [contactYO]
     mdEmpty mdOther (by decide)⟩

/-- An untrusted sorter that silently drops unit "mid". -/
def sorterDropsMid : SorterFn := fun _ _ _ _ _ => Except.ok ["young", "old"]

theorem columnAssembler_validation_witness :
    ¬ (["young", "old"] : List String).Perm (unitNames unitsYMO) ∧
    runSorter sorterDropsMid unitsYMO [] [] [] mdEmpty =
      Except.error (M2LError.validationError
        (missingNames ["young", "old"] unitsYMO)
        (extraNames ["young", "old"] unitsYMO)) :=
  ⟨by decide,
   (columnAssembler_validation sorterDropsMid unitsYMO [] [] [] mdEmpty
      ["young", "old"] rfl).1 (by decide)⟩

/-- A registered sorter producing the ordering young-old-mid. -/
def sorterYOM : SorterFn := fun _ _ _ _ _ => Except.ok ["young", "old", "mid"]

/-- A registered sorter producing the ordering young-mid-old. -/
def sorterYMO : SorterFn := fun _ _ _ _ _ => Except.ok ["young", "mid", "old"]

/-- Contacts making young-mid-old the highest-metric ordering. -/
def contactsYMO : List ContactRow :=
  [⟨"young", "mid", 500⟩, ⟨"mid", "old", 10⟩]

theorem takeBest_metric_maximal_witness :
    sorterYMO ∈ [sorterYOM, sorterYMO] ∧
    runSorter sorterYMO unitsYMO [] [] contactsYMO mdEmpty =
      Except.ok ["young", "mid", "old"] ∧
    ∃ best, takeBestColumn [sorterYOM, sorterYMO] unitsYMO [] [] contactsYMO
        mdEmpty = Except.ok best ∧
      contactLengthMetric contactsYMO ["young", "mid", "old"] ≤
        contactLengthMetric contactsYMO best :=
  ⟨List.Mem.tail _ (List.Mem.head _), rfl,
   takeBest_metric_maximal [sorterYOM, sorterYMO] unitsYMO [] [] contactsYMO
     mdEmpty sorterYMO (List.Mem.tail _ (List.Mem.head _))
     ["young", "mid", "old"] rfl⟩

theorem userDefined_column_bypasses_sorters_witness :
    (["young", "mid", "old"] : List String).Perm (unitNames unitsYMO) ∧
    assembleColumn [] false (some ["young", "mid", "old"]) sorterYOM unitsYMO
      [] [] [] mdEmpty = Except.ok ["young", "mid", "old"] :=
  ⟨by decide,
   userDefined_column_bypasses_sorters [] unitsYMO [] [] [] mdEmpty
     ["young", "mid", "old"] (by decide) sorterYOM⟩

/-- The age-based example units A (1,2), B (3,4), C (5,6), listed out of
order. -/
def unitsBAC : List UnitRow :=
  [⟨0, "B", "g1", "sg1", some 3, some 4, -1⟩,
   ⟨1, "A", "g1", "sg1", some 1, some 2, -1⟩,
   ⟨2, "C", "g1", "sg1", some 5, some 6, -1⟩]

/-- A unit lacking its minimum age. -/
def unitNoAge : UnitRow := ⟨0, "D", "g1", "sg1", none, some 2, -1⟩

theorem sorterAgeBased_spec_witness :
    SorterAgeBased_sort unitsBAC [] [] [] mdEmpty = Except.ok ["A", "B", "C"] ∧
    SorterAgeBased_sort [unitNoAge] [] [] [] mdEmpty =
      Except.error (M2LError.missingDataError "unit age data missing") :=
  ⟨rfl,
   (sorterAgeBased_spec [unitNoAge] [] [] [] mdEmpty).1
     ⟨unitNoAge, List.mem_singleton_self _, by decide⟩⟩

theorem sorterUseHint_idempotent_witness :
    (["old", "mid", "young"] : List String).Perm (unitNames unitsYMO) ∧
    SorterUseHint_sort unitsYMO [] ["old", "mid", "young"] [] mdEmpty =
      Except.ok ["old", "mid", "young"] :=
  ⟨by decide,
   (sorterUseHint_idempotent unitsYMO [] ["old", "mid", "young"] [] mdEmpty).1
     (by decide)⟩

/-- The three concrete units with every thickness set to 100. -/
def unitsYMO100 : List UnitRow :=
  [⟨0, "young", "g1", "sg1", some 0, some 1, 100⟩,
   ⟨1, "mid", "g1", "sg1", some 1, some 2, 100⟩,
   ⟨2, "old", "g2", "sg1", some 2, some 3, 100⟩]

theorem thicknessAssembler_preserves_rows_witness :
    assembleThickness (myThicknessCalculator_compute 100) unitsYMO
      ["young", "mid", "old"] [] mdEmpty = Except.ok unitsYMO100 ∧
    (unitsYMO100.length = unitsYMO.length ∧
     unitsYMO100.map UnitRow.core = unitsYMO.map UnitRow.core) := by
  have hA : assembleThickness (myThicknessCalculator_compute 100) unitsYMO
      ["young", "mid", "old"] [] mdEmpty = Except.ok unitsYMO100 := rfl
  exact ⟨hA, thicknessAssembler_preserves_rows (myThicknessCalculator_compute 100)
    unitsYMO ["young", "mid", "old"] [] mdEmpty unitsYMO100 hA⟩

/-- The three concrete units with every thickness set to 50. -/
def unitsYMO50 : List UnitRow :=
  [⟨0, "young", "g1", "sg1", some 0, some 1, 50⟩,
   ⟨1, "mid", "g1", "sg1", some 1, some 2, 50⟩,
   ⟨2, "old", "g2", "sg1", some 2, some 3, 50⟩]

theorem thicknessCalculator_frame_witness :
    assembleThickness (myThicknessCalculator_compute 50) unitsYMO [] [] mdEmpty =
      Except.ok unitsYMO50 ∧
    (unitsYMO50.map UnitRow.group = unitsYMO.map UnitRow.group ∧
     unitsYMO50.map UnitRow.supergroup = unitsYMO.map UnitRow.supergroup ∧
     unitsYMO50.map UnitRow.minAge = unitsYMO.map UnitRow.minAge ∧
     unitsYMO50.map UnitRow.maxAge = unitsYMO.map UnitRow.maxAge) := by
  have hA : assembleThickness (myThicknessCalculator_compute 50) unitsYMO
      [] [] mdEmpty = Except.ok unitsYMO50 := rfl
  exact ⟨hA, thicknessCalculator_frame (myThicknessCalculator_compute 50)
    unitsYMO [] [] mdEmpty unitsYMO50 hA⟩

/-- Separation measurements: one contact pair for unit "young", none for any
other unit. -/
def measYoung : String → List (ℚ × ℚ) := fun n => if n = "young" then [(3, 1)] else []

/-- The single-unit table for the sentinel-policy instantiation. -/
def unitsYoungOnly : List UnitRow := [⟨0, "young", "g1", "sg1", some 0, some 1, -1⟩]

/-- The output row for unit "young" under `measYoung`. -/
def rowYoungThick : UnitRow :=
  ⟨0, "young", "g1", "sg1", some 0, some 1, apparentThickness [((3 : ℚ), 1)]⟩

theorem thickness_sentinel_policy_witness :
    rowYoungThick ∈
      contactPairThicknessCalculator measYoung unitsYoungOnly [] [] mdEmpty ∧
    ((measYoung rowYoungThick.name = [] ∧ rowYoungThick.thickness = -1) ∨
     (measYoung rowYoungThick.name ≠ [] ∧ 0 ≤ rowYoungThick.thickness)) := by
  have hmem : rowYoungThick ∈
      contactPairThicknessCalculator measYoung unitsYoungOnly [] [] mdEmpty :=
    List.Mem.head _
  exact ⟨hmem, thickness_sentinel_policy measYoung unitsYoungOnly [] [] mdEmpty
    rowYoungThick hmem⟩

/-- A stand-in external `GDALInvGeoTransform` that reports failure. -/
def gdalCallFail : (Fin 6 → ℚ) → GdalInvResult := fun g => ⟨1, g⟩

theorem gdal_inv_geo_transform_spec_witness :
    6 ≤ ([0, 1, 2, 3, 4, 5] : List ℚ).length ∧
    ((∀ l, gdal_inv_geo_transform gdalCallFail [0, 1, 2, 3, 4, 5] = Except.ok l →
        l = (List.finRange 6).map
              (gdalCallFail (fun i => ([0, 1, 2, 3, 4, 5] : List ℚ).getD i 0)).gt_out ∧
        l.length = 6) ∧
     (gdal_inv_geo_transform gdalCallFail [0, 1, 2, 3, 4, 5] =
         Except.error "Geotransform inversion failed" ↔
       (gdalCallFail (fun i => ([0, 1, 2, 3, 4, 5] : List ℚ).getD i 0)).code ≠ 0)) :=
  ⟨by decide, gdal_inv_geo_transform_spec gdalCallFail [0, 1, 2, 3, 4, 5] (by decide)⟩

end Map2Loop
